import Mathlib

/-!
# Verification of the Icecast slave/relay subsystem (`src/slave.c`)

This file is a shallow embedding of the relay-reconciliation, slave-host and
relay-worker logic of `slave.c` together with proofs of the behavioural
properties stated in the specification.

Modelling conventions:
* C strings become `String`; `strcmp(a,b) == 0` becomes string equality.
* C `int` fields become `Int` (flags keep their C truthiness: `≠ 0`).
* Intrusive singly-linked lists (`relay_server.next`, `slave_host.next`)
  become Lean `List`s.
* Pointers that may be `NULL` become `Option`.
* External effectful calls (locks, stats, logging, thread creation) are
  modelled by recording in the result which calls were made; the lock
  calls themselves have no sequential semantics and are dropped.
-/

/-- One configured relay, mirroring `struct _relay_server` as used by
`slave.c`.  The `source` pointer is abstracted as an optional handle
(the reconciliation code only tests and transfers it); `thread` is not
modelled (the reconciliation functions never touch it). -/
structure relay_server where
  server : String
  mount : String
  localmount : String
  username : Option String
  password : Option String
  port : Int
  mp3metadata : Int
  on_demand : Int
  enable : Int
  source : Option Nat
  running : Int
  cleanup : Int
deriving DecidableEq, Repr

/-- `relay_copy` (slave.c:95): deep-copies the configuration fields into a
fresh `calloc`ed record (so `running`, `cleanup` start at 0), transfers the
source handle to the copy and zeroes it on the original.  Returns
`(copy, mutated original)`. -/
def relay_copy (r : relay_server) : relay_server × relay_server :=
  let copy : relay_server :=
    { server := r.server
      mount := r.mount
      localmount := r.localmount
      username := r.username
      password := r.password
      port := r.port
      mp3metadata := r.mp3metadata
      on_demand := r.on_demand
      enable := r.enable
      source := r.source
      running := 0
      cleanup := 0 }
  (copy, { r with source := none })

/-- `relay_has_changed` (slave.c:471): returns 1 when the relay needs a
restart, 0 otherwise.  When it returns 0 it also performs the
`on_demand` hot update on `old`; the function returns the pair
(return value, possibly-mutated `old`). -/
def relay_has_changed (new : relay_server) (old : relay_server) :
    Int × relay_server :=
  if new.mount ≠ old.mount then (1, old)
  else if new.server ≠ old.server then (1, old)
  else if new.port ≠ old.port then (1, old)
  else if new.mp3metadata ≠ old.mp3metadata then (1, old)
  else (0, { old with on_demand := new.on_demand })

/-- The break condition of the inner scan of `update_relay_set`
(slave.c:510-512): same `localmount` and `relay_has_changed == 0`. -/
def relay_matches (d e : relay_server) : Bool :=
  d.localmount == e.localmount && (relay_has_changed d e).fst == 0

/-- The inner `while (existing_relay)` loop of `update_relay_set`
(slave.c:507-515 together with the unlink at line 523): scan `current`
for the first entry matching `relay`; on a hit return the (hot-updated)
entry and `current` with that entry unlinked. -/
def find_existing (relay : relay_server) :
    List relay_server → Option (relay_server × List relay_server)
  | [] => none
  | e :: rest =>
    if relay_matches relay e then
      some ((relay_has_changed relay e).snd, rest)
    else
      match find_existing relay rest with
      | none => none
      | some (e2, rest2) => some (e2, e :: rest2)

/-- The outer `while (relay)` loop of `update_relay_set` (slave.c:502-528).
State threaded through: the (shrinking) `current` list, the remaining
`updated` list and the `new_list` accumulator.  Returns
(residual current, mutated updated, new_list). -/
def update_relay_set_loop (current : List relay_server) :
    List relay_server → List relay_server →
    List relay_server × List relay_server × List relay_server
  | [], new_list => (current, [], new_list)
  | relay :: rest, new_list =>
    match find_existing relay current with
    | some (e, current2) =>
      let r := update_relay_set_loop current2 rest (e :: new_list)
      (r.1, relay :: r.2.1, r.2.2)
    | none =>
      let c := relay_copy relay
      let r := update_relay_set_loop current rest (c.fst :: new_list)
      (r.1, c.snd :: r.2.1, r.2.2)

/-- `update_relay_set` (slave.c:495): returns
(residual `current` list, `updated` list after `relay_copy` mutations,
the new active list). -/
def update_relay_set (current updated : List relay_server) :
    List relay_server × List relay_server × List relay_server :=
  update_relay_set_loop current updated []

/-- `update_relays` (slave.c:537): runs `update_relay_set`, re-assigns the
relay list to the produced active set and returns whatever remained of the
old list as the cleanup list.  Result:
(new value of `*relay_list`, mutated `new_relay_list`, cleanup list). -/
def update_relays (relay_list new_relay_list : List relay_server) :
    List relay_server × List relay_server × List relay_server :=
  let r := update_relay_set relay_list new_relay_list
  (r.2.2, r.2.1, r.1)

/-! ### Specification-side descriptions of the reconciler

The following definitions restate, in the spec's vocabulary, what one pass
of the reconciler is supposed to produce; the theorems below prove the code
equal to them. -/

/-- Spec notion of material equivalence: `server`, `mount`, `port` and
`mp3_metadata` agree. -/
def materially_equivalent (d e : relay_server) : Prop :=
  d.server = e.server ∧ d.mount = e.mount ∧ d.port = e.port ∧
    d.mp3metadata = e.mp3metadata

instance (d e : relay_server) : Decidable (materially_equivalent d e) := by
  unfold materially_equivalent; infer_instance

/-- Spec description of the record pushed for one updated record `d`:
promote the matching current record (with `d`'s `on_demand` copied in)
when one exists, otherwise introduce a fresh copy of `d`. -/
def reconcile_entry (current : List relay_server) (d : relay_server) :
    relay_server :=
  match current.find? (relay_matches d) with
  | some e => { e with on_demand := d.on_demand }
  | none => (relay_copy d).fst

/-- Spec description of what happens to an updated record `d` itself:
untouched when promoted, source handle zeroed when introduced. -/
def reconcile_mark (current : List relay_server) (d : relay_server) :
    relay_server :=
  if (current.find? (relay_matches d)).isSome then d
  else { d with source := none }

/-! ### Basic facts about `relay_has_changed` and `relay_matches` -/

lemma relay_has_changed_fst_eq_zero_iff (d e : relay_server) :
    (relay_has_changed d e).fst = 0 ↔ materially_equivalent d e := by
  unfold relay_has_changed materially_equivalent
  split_ifs with h1 h2 h3 h4 <;> simp_all

lemma relay_has_changed_fst_of_ne (d e : relay_server)
    (h : ¬ materially_equivalent d e) : (relay_has_changed d e).fst = 1 := by
  unfold relay_has_changed materially_equivalent at *
  split_ifs with h1 h2 h3 h4 <;> simp_all

lemma relay_has_changed_snd_of_eq (d e : relay_server)
    (h : (relay_has_changed d e).fst = 0) :
    (relay_has_changed d e).snd = { e with on_demand := d.on_demand } := by
  unfold relay_has_changed at *
  split_ifs at h ⊢ <;> simp_all

lemma relay_has_changed_snd_of_ne (d e : relay_server)
    (h : ¬ materially_equivalent d e) : (relay_has_changed d e).snd = e := by
  unfold relay_has_changed materially_equivalent at *
  split_ifs with h1 h2 h3 h4 <;> simp_all

lemma relay_matches_iff (d e : relay_server) :
    relay_matches d e = true ↔
      d.localmount = e.localmount ∧ materially_equivalent d e := by
  unfold relay_matches
  rw [Bool.and_eq_true, beq_iff_eq, beq_iff_eq, relay_has_changed_fst_eq_zero_iff]

lemma relay_matches_localmount {d e : relay_server}
    (h : relay_matches d e = true) : d.localmount = e.localmount :=
  ((relay_matches_iff d e).mp h).1

/-! ### Characterisation of the inner scan -/

lemma find_existing_eq (relay : relay_server) (cur : List relay_server) :
    find_existing relay cur =
      (cur.find? (relay_matches relay)).map
        (fun e => ((relay_has_changed relay e).snd,
                   cur.eraseP (relay_matches relay))) := by
  induction cur with
  | nil => rfl
  | cons e rest ih =>
    by_cases h : relay_matches relay e
    · rw [List.find?_cons_of_pos _ h, List.eraseP_cons_of_pos h]
      simp [find_existing, h]
    · rw [List.find?_cons_of_neg _ h, List.eraseP_cons_of_neg h]
      simp only [find_existing, h, if_neg, ih, Bool.false_eq_true, if_false]
      cases rest.find? (relay_matches relay) <;> simp

/-- Erasing the first `q`-element does not disturb `find? p` when no
`q`-element can satisfy `p`. -/
lemma find?_eraseP_of_disjoint {α : Type} (p q : α → Bool) (l : List α)
    (h : ∀ x ∈ l, q x = true → p x = false) :
    (l.eraseP q).find? p = l.find? p := by
  induction l with
  | nil => rfl
  | cons a as ih =>
    by_cases hq : q a
    · rw [List.eraseP_cons_of_pos hq]
      have hp : p a = false := h a (List.mem_cons_self a as) hq
      rw [List.find?_cons_of_neg _ (by simp [hp])]
    · rw [List.eraseP_cons_of_neg hq]
      by_cases hp : p a
      · rw [List.find?_cons_of_pos _ hp, List.find?_cons_of_pos _ hp]
      · rw [List.find?_cons_of_neg _ hp, List.find?_cons_of_neg _ hp]
        exact ih (fun x hx => h x (List.mem_cons_of_mem a hx))

/-- Two distinct updated records (by localmount) can never match the same
current record. -/
lemma matches_disjoint {r d : relay_server}
    (hne : d.localmount ≠ r.localmount) :
    ∀ x : relay_server, relay_matches r x = true → relay_matches d x = false := by
  intro x hr
  by_contra hb
  have hd : relay_matches d x = true := by
    cases hdx : relay_matches d x
    · exact absurd hdx hb
    · rfl
  exact hne ((relay_matches_localmount hd).trans
    (relay_matches_localmount hr).symm)

/-- Filtering after erasing the first match of `r` equals filtering the
original list with the extra conjunct `¬ relay_matches r`, provided
localmounts are unique in the list. -/
lemma filter_eraseP_matches (r : relay_server) (Q : relay_server → Bool)
    (current : List relay_server)
    (h : (current.map relay_server.localmount).Nodup) :
    (current.eraseP (relay_matches r)).filter Q
      = current.filter (fun e => !relay_matches r e && Q e) := by
  induction current with
  | nil => rfl
  | cons c cs ih =>
    rw [List.map_cons, List.nodup_cons] at h
    obtain ⟨hnotin, hnd⟩ := h
    by_cases hm : relay_matches r c
    · rw [List.eraseP_cons_of_pos hm, List.filter_cons]
      rw [if_neg (by simp [hm])]
      apply List.filter_congr
      intro x hx
      have hrx : relay_matches r x = false := by
        cases hrx : relay_matches r x
        · rfl
        · exfalso
          apply hnotin
          rw [List.mem_map]
          refine ⟨x, hx, ?_⟩
          rw [← relay_matches_localmount hrx, relay_matches_localmount hm]
      simp [hrx]
    · rw [List.eraseP_cons_of_neg hm, List.filter_cons, List.filter_cons,
        ih hnd]
      have : (!relay_matches r c && Q c) = Q c := by simp [hm]
      rw [this]

/-- One pass of the outer loop: the accumulator receives, in reverse
order, the promote-or-introduce record of each updated entry (computed
against the *original* current list), and the updated list is marked
as `reconcile_mark` describes.  Needs unique localmounts in `updated`. -/
lemma update_relay_set_loop_spec (updated : List relay_server) :
    ∀ (current acc : List relay_server),
      (updated.map relay_server.localmount).Nodup →
      (update_relay_set_loop current updated acc).2.2
          = (updated.map (reconcile_entry current)).reverse ++ acc
      ∧ (update_relay_set_loop current updated acc).2.1
          = updated.map (reconcile_mark current) := by
  induction updated with
  | nil => intro current acc _; simp [update_relay_set_loop]
  | cons relay rest ih =>
    intro current acc hnd
    rw [List.map_cons, List.nodup_cons] at hnd
    obtain ⟨hnotin, hnd⟩ := hnd
    have hstable : ∀ d ∈ rest,
        (current.eraseP (relay_matches relay)).find? (relay_matches d)
          = current.find? (relay_matches d) := by
      intro d hd
      apply find?_eraseP_of_disjoint
      intro x _ hq
      apply matches_disjoint _ x hq
      intro heq
      exact hnotin (heq ▸ List.mem_map_of_mem relay_server.localmount hd)
    cases hf : current.find? (relay_matches relay) with
    | none =>
      have hfe : find_existing relay current = none := by
        rw [find_existing_eq, hf]; rfl
      have hih := ih current ((relay_copy relay).fst :: acc) hnd
      simp only [update_relay_set_loop, hfe]
      refine ⟨?_, ?_⟩
      · rw [hih.1, List.map_cons, List.reverse_cons, List.append_assoc,
          List.singleton_append]
        simp [reconcile_entry, hf]
      · rw [hih.2, List.map_cons]
        have hmk : reconcile_mark current relay = (relay_copy relay).snd := by
          simp [reconcile_mark, hf, relay_copy]
        rw [hmk]
    | some e =>
      have hm : relay_matches relay e := List.find?_some hf
      have h0 : (relay_has_changed relay e).fst = 0 :=
        (relay_has_changed_fst_eq_zero_iff relay e).mpr
          ((relay_matches_iff relay e).mp hm).2
      have hfe : find_existing relay current
          = some ((relay_has_changed relay e).snd,
                  current.eraseP (relay_matches relay)) := by
        rw [find_existing_eq, hf]; rfl
      have hih := ih (current.eraseP (relay_matches relay))
        ((relay_has_changed relay e).snd :: acc) hnd
      simp only [update_relay_set_loop, hfe]
      have hmap : rest.map (reconcile_entry (current.eraseP (relay_matches relay)))
          = rest.map (reconcile_entry current) :=
        List.map_congr_left (fun d hd => by
          unfold reconcile_entry; rw [hstable d hd])
      have hmap2 : rest.map (reconcile_mark (current.eraseP (relay_matches relay)))
          = rest.map (reconcile_mark current) :=
        List.map_congr_left (fun d hd => by
          unfold reconcile_mark; rw [hstable d hd])
      have hent : reconcile_entry current relay = (relay_has_changed relay e).snd := by
        unfold reconcile_entry
        rw [hf, relay_has_changed_snd_of_eq relay e h0]
      refine ⟨?_, ?_⟩
      · rw [hih.1, hmap, List.map_cons, List.reverse_cons, List.append_assoc,
          List.singleton_append, hent]
      · rw [hih.2, hmap2, List.map_cons]
        have hmk : reconcile_mark current relay = relay := by
          simp [reconcile_mark, hf]
        rw [hmk]

/-- One pass of the outer loop: the residual current list is exactly the
current records matched by no updated record.  Needs unique localmounts
in both lists. -/
lemma update_relay_set_loop_residual (updated : List relay_server) :
    ∀ (current acc : List relay_server),
      (updated.map relay_server.localmount).Nodup →
      (current.map relay_server.localmount).Nodup →
      (update_relay_set_loop current updated acc).1
        = current.filter (fun e => updated.all (fun d => !relay_matches d e)) := by
  induction updated with
  | nil =>
    intro current acc _ _
    simp [update_relay_set_loop]
  | cons relay rest ih =>
    intro current acc hu hc
    rw [List.map_cons, List.nodup_cons] at hu
    obtain ⟨hnotin, hu⟩ := hu
    cases hf : current.find? (relay_matches relay) with
    | none =>
      have hfe : find_existing relay current = none := by
        rw [find_existing_eq, hf]; rfl
      simp only [update_relay_set_loop, hfe]
      rw [ih current _ hu hc]
      apply List.filter_congr
      intro x hx
      have hno : relay_matches relay x = false := by
        have := List.find?_eq_none.mp hf x hx
        cases h : relay_matches relay x
        · rfl
        · exact absurd h this
      simp [List.all_cons, hno]
    | some e =>
      have hfe : find_existing relay current
          = some ((relay_has_changed relay e).snd,
                  current.eraseP (relay_matches relay)) := by
        rw [find_existing_eq, hf]; rfl
      simp only [update_relay_set_loop, hfe]
      have hc2 : ((current.eraseP (relay_matches relay)).map
          relay_server.localmount).Nodup :=
        List.Nodup.sublist
          (List.Sublist.map relay_server.localmount (List.eraseP_sublist current)) hc
      rw [ih _ _ hu hc2, filter_eraseP_matches relay _ current hc]
      apply List.filter_congr
      intro x _
      simp [List.all_cons]

lemma materially_equivalent_symm {d e : relay_server}
    (h : materially_equivalent d e) : materially_equivalent e d := by
  obtain ⟨h1, h2, h3, h4⟩ := h
  exact ⟨h1.symm, h2.symm, h3.symm, h4.symm⟩

lemma materially_equivalent_trans {d e f : relay_server}
    (h : materially_equivalent d e) (h2 : materially_equivalent e f) :
    materially_equivalent d f := by
  obtain ⟨a1, a2, a3, a4⟩ := h
  obtain ⟨b1, b2, b3, b4⟩ := h2
  exact ⟨a1.trans b1, a2.trans b2, a3.trans b3, a4.trans b4⟩

lemma reconcile_entry_localmount (current : List relay_server)
    (d : relay_server) :
    (reconcile_entry current d).localmount = d.localmount := by
  unfold reconcile_entry
  cases hf : current.find? (relay_matches d) with
  | none => simp [relay_copy]
  | some e =>
    simp only
    exact (relay_matches_localmount (List.find?_some hf)).symm

lemma reconcile_entry_material (current : List relay_server)
    (d : relay_server) :
    materially_equivalent d (reconcile_entry current d) := by
  unfold reconcile_entry
  cases hf : current.find? (relay_matches d) with
  | none => simp [relay_copy, materially_equivalent]
  | some e =>
    simp only
    have hm := ((relay_matches_iff d e).mp (List.find?_some hf)).2
    obtain ⟨h1, h2, h3, h4⟩ := hm
    exact ⟨h1, h2, h3, h4⟩

lemma forall₂_mem_left {R : relay_server → relay_server → Prop}
    {l l2 : List relay_server} (h : List.Forall₂ R l l2) {a : relay_server}
    (ha : a ∈ l) : ∃ b ∈ l2, R a b := by
  induction h with
  | nil => cases ha
  | cons hr _ ih =>
    rcases List.mem_cons.mp ha with rfl | ha2
    · exact ⟨_, List.mem_cons_self _ _, hr⟩
    · obtain ⟨b, hb, hrb⟩ := ih ha2
      exact ⟨b, List.mem_cons_of_mem _ hb, hrb⟩

lemma forall₂_map_localmount
    {R : relay_server → relay_server → Prop}
    (hR : ∀ d d2, R d d2 → d.localmount = d2.localmount)
    {l l2 : List relay_server} (h : List.Forall₂ R l l2) :
    l2.map relay_server.localmount = l.map relay_server.localmount := by
  induction h with
  | nil => rfl
  | cons hr _ ih => simp [ih, hR _ _ hr]

/-! ### Sample records used by the witness theorems -/

def wr_a : relay_server :=
  ⟨"master.example", "/a", "/a", none, none, 8000, 1, 0, 1, some 1, 1, 0⟩

def wr_b : relay_server :=
  ⟨"master.example", "/b", "/b", some "u", some "p", 8000, 1, 0, 1, none, 0, 0⟩

/-- Materially equivalent to `wr_a` but with a toggled `on_demand`. -/
def wr_a2 : relay_server :=
  ⟨"master.example", "/a", "/a", none, none, 8000, 1, 1, 1, none, 0, 0⟩

def wr_c : relay_server :=
  ⟨"other.example", "/c", "/c", none, none, 9000, 0, 1, 1, some 2, 0, 0⟩

/-- C1: on lists with unique localmounts, one reconciliation pass pushes,
for each updated record `d` in turn, either the promoted current record
(the one with `d`'s localmount, materially equivalent, with `d`'s
`on_demand` copied in) or a fresh `relay_copy` of `d` (whose source handle
is taken from `d`, `d`'s own source being zeroed); the result list is the
reverse of the `updated` order, the records left in `current` are exactly
the unmatched ones, and `update_relays` returns exactly that residue as
the cleanup list. -/
theorem C1_update_relay_set_partition (current updated : List relay_server)
    (hu : (updated.map relay_server.localmount).Nodup)
    (hc : (current.map relay_server.localmount).Nodup) :
    (update_relay_set current updated).2.2
        = (updated.map (reconcile_entry current)).reverse
    ∧ (update_relay_set current updated).2.1
        = updated.map (reconcile_mark current)
    ∧ (update_relay_set current updated).1
        = current.filter (fun e => updated.all (fun d => !relay_matches d e))
    ∧ (update_relays current updated).2.2 = (update_relay_set current updated).1
    ∧ (∀ d e, relay_matches d e = true ↔
        d.localmount = e.localmount ∧ materially_equivalent d e) := by
  have h1 := update_relay_set_loop_spec updated current [] hu
  have h2 := update_relay_set_loop_residual updated current [] hu hc
  refine ⟨?_, h1.2, h2, rfl, relay_matches_iff⟩
  have := h1.1
  rw [List.append_nil] at this
  exact this

theorem C1_update_relay_set_partition_witness :
    (([wr_a2, wr_c].map relay_server.localmount).Nodup
      ∧ ([wr_a, wr_b].map relay_server.localmount).Nodup)
    ∧ ((update_relay_set [wr_a, wr_b] [wr_a2, wr_c]).2.2
          = ([wr_a2, wr_c].map (reconcile_entry [wr_a, wr_b])).reverse
      ∧ (update_relay_set [wr_a, wr_b] [wr_a2, wr_c]).2.1
          = [wr_a2, wr_c].map (reconcile_mark [wr_a, wr_b])
      ∧ (update_relay_set [wr_a, wr_b] [wr_a2, wr_c]).1
          = [wr_a, wr_b].filter
              (fun e => [wr_a2, wr_c].all (fun d => !relay_matches d e))
      ∧ (update_relays [wr_a, wr_b] [wr_a2, wr_c]).2.2
          = (update_relay_set [wr_a, wr_b] [wr_a2, wr_c]).1
      ∧ (∀ d e, relay_matches d e = true ↔
          d.localmount = e.localmount ∧ materially_equivalent d e)) :=
  ⟨⟨by decide, by decide⟩,
   C1_update_relay_set_partition [wr_a, wr_b] [wr_a2, wr_c]
     (by decide) (by decide)⟩

/-- C2: `relay_has_changed` returns 0 exactly when `server`, `mount`,
`port` and `mp3metadata` agree; in that case it hot-updates `on_demand`
on the old record; any material difference yields 1 (restart) regardless
of `on_demand`; and a materially-equivalent pair with the same localmount
leaves no cleanup entry behind. -/
theorem C2_relay_has_changed_hot_update (new old : relay_server) :
    ((relay_has_changed new old).fst = 0 ↔ materially_equivalent new old)
    ∧ ((relay_has_changed new old).fst = 0 →
        (relay_has_changed new old).snd = { old with on_demand := new.on_demand })
    ∧ (¬ materially_equivalent new old → (relay_has_changed new old).fst = 1)
    ∧ (new.localmount = old.localmount → materially_equivalent new old →
        (update_relay_set [old] [new]).1 = []) := by
  refine ⟨relay_has_changed_fst_eq_zero_iff new old,
    relay_has_changed_snd_of_eq new old,
    relay_has_changed_fst_of_ne new old, ?_⟩
  intro hl hm
  have hmatch : relay_matches new old = true :=
    (relay_matches_iff new old).mpr ⟨hl, hm⟩
  simp [update_relay_set, update_relay_set_loop, find_existing, hmatch]

theorem C2_relay_has_changed_hot_update_witness :
    ((relay_has_changed wr_a2 wr_a).fst = 0
      ∧ wr_a2.localmount = wr_a.localmount ∧ materially_equivalent wr_a2 wr_a)
    ∧ (relay_has_changed wr_a2 wr_a).snd = { wr_a with on_demand := wr_a2.on_demand }
    ∧ (update_relay_set [wr_a] [wr_a2]).1 = [] :=
  ⟨⟨by decide, by decide, by decide⟩,
   (C2_relay_has_changed_hot_update wr_a2 wr_a).2.1 (by decide),
   (C2_relay_has_changed_hot_update wr_a2 wr_a).2.2.2 (by decide) (by decide)⟩

/-- C3: reconciliation is idempotent.  After one `update_relays` pass with
an `updated` list whose localmounts are unique, a second pass against any
list that is record-for-record materially equal (same localmount, server,
mount, port, mp3metadata) to `updated` promotes every record and leaves an
empty cleanup list. -/
theorem C3_idempotent_reconcile (current updated updated2 : List relay_server)
    (hu : (updated.map relay_server.localmount).Nodup)
    (heq : List.Forall₂
      (fun d d2 => d.localmount = d2.localmount ∧ materially_equivalent d d2)
      updated updated2) :
    (update_relays (update_relays current updated).1 updated2).2.2 = [] := by
  have h1 := (update_relay_set_loop_spec updated current [] hu).1
  rw [List.append_nil] at h1
  have hcur1 : (update_relays current updated).1
      = (updated.map (reconcile_entry current)).reverse := h1
  have hmaplm : (updated.map (reconcile_entry current)).reverse.map
      relay_server.localmount
      = (updated.map relay_server.localmount).reverse := by
    rw [List.map_reverse, List.map_map]
    congr 1
    exact List.map_congr_left fun d _ => reconcile_entry_localmount current d
  have hc1 : (((update_relays current updated).1).map
      relay_server.localmount).Nodup := by
    rw [hcur1, hmaplm]
    exact List.nodup_reverse.mpr hu
  have hu2 : (updated2.map relay_server.localmount).Nodup := by
    rw [forall₂_map_localmount (fun d d2 h => h.1) heq]
    exact hu
  have h2 := update_relay_set_loop_residual updated2
    ((update_relays current updated).1) [] hu2 hc1
  show (update_relay_set_loop ((update_relays current updated).1) updated2 []).1 = []
  rw [h2]
  rw [List.filter_eq_nil_iff]
  intro e he
  rw [hcur1, List.mem_reverse, List.mem_map] at he
  obtain ⟨d, hd, rfl⟩ := he
  obtain ⟨d2, hd2, hlm, hmat⟩ := forall₂_mem_left heq hd
  have hmatch : relay_matches d2 (reconcile_entry current d) = true := by
    rw [relay_matches_iff]
    constructor
    · rw [← hlm, reconcile_entry_localmount]
    · exact materially_equivalent_trans (materially_equivalent_symm hmat)
        (reconcile_entry_material current d)
  intro hall
  have := List.all_eq_true.mp hall d2 hd2
  rw [hmatch] at this
  simp at this

theorem C3_idempotent_reconcile_witness :
    (([wr_a, wr_c].map relay_server.localmount).Nodup
      ∧ List.Forall₂
          (fun d d2 => d.localmount = d2.localmount ∧ materially_equivalent d d2)
          [wr_a, wr_c] [wr_a2, wr_c])
    ∧ (update_relays (update_relays [wr_b] [wr_a, wr_c]).1 [wr_a2, wr_c]).2.2
        = [] :=
  ⟨⟨by decide,
    List.Forall₂.cons ⟨by decide, by decide⟩
      (List.Forall₂.cons ⟨by decide, by decide⟩ List.Forall₂.nil)⟩,
   C3_idempotent_reconcile [wr_b] [wr_a, wr_c] [wr_a2, wr_c] (by decide)
     (List.Forall₂.cons ⟨by decide, by decide⟩
       (List.Forall₂.cons ⟨by decide, by decide⟩ List.Forall₂.nil))⟩

/-! ### The relay worker's upstream request (C4)

`start_relay_stream` (slave.c:239-291) builds the auth and redirect
headers (slave.c:241-275) and emits the request with a single
`sock_write` (slave.c:282-291).  The byte stream is a sequence of
CRLF-terminated lines; we model it as that list of lines (CRLF stripped),
in emission order, ending with the empty line that terminates the header
block.  `version` stands for `ICECAST_VERSION_STRING` and `b64` for the
external `util_base64_encode`. -/

def relay_request_lines (relay : relay_server) (hostname : String)
    (master_redirect_port : Int) (version : String)
    (b64 : String → String) : List String :=
  let cred_headers : List String :=
    match relay.username, relay.password with
    | some u, some p =>
      (if master_redirect_port ≠ 0 then
        ["ice-redirect: " ++ hostname ++ ":" ++ toString master_redirect_port]
       else [])
      ++ ["Authorization: Basic " ++ b64 (u ++ ":" ++ p)]
    | _, _ => []
  ["GET " ++ relay.mount ++ " HTTP/1.0", "User-Agent: " ++ version]
    ++ (if relay.mp3metadata ≠ 0 then ["Icy-MetaData: 1"] else [])
    ++ cred_headers ++ [""]

/-- First character of a string, used to tell the request lines apart. -/
def firstChar (s : String) : Option Char := s.data.head?

lemma string_data_append (s t : String) : (s ++ t).data = s.data ++ t.data := by
  cases s; cases t; rfl

lemma firstChar_append {s : String} (t : String) {c : Char}
    (h : firstChar s = some c) : firstChar (s ++ t) = some c := by
  unfold firstChar at *
  rw [string_data_append]
  cases hd : s.data with
  | nil => rw [hd] at h; cases h
  | cons a as => rw [hd] at h; simpa using h

lemma ne_of_firstChar {s t : String} {c d : Char} (hs : firstChar s = some c)
    (ht : firstChar t = some d) (h : c ≠ d) : s ≠ t := by
  intro he
  rw [he, ht] at hs
  exact h (Option.some.inj hs).symm

lemma ne_empty_of_firstChar {s : String} {c : Char}
    (hs : firstChar s = some c) : s ≠ "" := by
  intro he
  rw [he] at hs
  cases hs

lemma firstChar_get_line (m : String) :
    firstChar ("GET " ++ m ++ " HTTP/1.0") = some 'G' :=
  firstChar_append _ (firstChar_append _ rfl)

lemma firstChar_ua_line (v : String) :
    firstChar ("User-Agent: " ++ v) = some 'U' :=
  firstChar_append _ rfl

lemma firstChar_redirect_line (h p : String) :
    firstChar ("ice-redirect: " ++ h ++ ":" ++ p) = some 'i' :=
  firstChar_append _ (firstChar_append _ (firstChar_append _ rfl))

lemma firstChar_auth_line (s : String) :
    firstChar ("Authorization: Basic " ++ s) = some 'A' :=
  firstChar_append _ rfl

lemma redirect_ne_get (h p m : String) :
    "ice-redirect: " ++ h ++ ":" ++ p ≠ "GET " ++ m ++ " HTTP/1.0" :=
  ne_of_firstChar (firstChar_redirect_line h p) (firstChar_get_line m) (by decide)

lemma redirect_ne_ua (h p v : String) :
    "ice-redirect: " ++ h ++ ":" ++ p ≠ "User-Agent: " ++ v :=
  ne_of_firstChar (firstChar_redirect_line h p) (firstChar_ua_line v) (by decide)

lemma redirect_ne_icy (h p : String) :
    "ice-redirect: " ++ h ++ ":" ++ p ≠ "Icy-MetaData: 1" :=
  ne_of_firstChar (firstChar_redirect_line h p) rfl (by decide)

lemma redirect_ne_auth (h p s : String) :
    "ice-redirect: " ++ h ++ ":" ++ p ≠ "Authorization: Basic " ++ s :=
  ne_of_firstChar (firstChar_redirect_line h p) (firstChar_auth_line s) (by decide)

lemma redirect_ne_empty (h p : String) :
    "ice-redirect: " ++ h ++ ":" ++ p ≠ "" :=
  ne_empty_of_firstChar (firstChar_redirect_line h p)

lemma icy_ne_get (m : String) : "Icy-MetaData: 1" ≠ "GET " ++ m ++ " HTTP/1.0" :=
  ne_of_firstChar rfl (firstChar_get_line m) (by decide)

lemma icy_ne_ua (v : String) : "Icy-MetaData: 1" ≠ "User-Agent: " ++ v :=
  ne_of_firstChar rfl (firstChar_ua_line v) (by decide)

lemma icy_ne_redirect (h p : String) :
    "Icy-MetaData: 1" ≠ "ice-redirect: " ++ h ++ ":" ++ p :=
  ne_of_firstChar rfl (firstChar_redirect_line h p) (by decide)

lemma icy_ne_auth (s : String) : "Icy-MetaData: 1" ≠ "Authorization: Basic " ++ s :=
  ne_of_firstChar rfl (firstChar_auth_line s) (by decide)

lemma auth_ne_get (s m : String) :
    "Authorization: Basic " ++ s ≠ "GET " ++ m ++ " HTTP/1.0" :=
  ne_of_firstChar (firstChar_auth_line s) (firstChar_get_line m) (by decide)

lemma auth_ne_ua (s v : String) :
    "Authorization: Basic " ++ s ≠ "User-Agent: " ++ v :=
  ne_of_firstChar (firstChar_auth_line s) (firstChar_ua_line v) (by decide)

lemma auth_ne_icy (s : String) : "Authorization: Basic " ++ s ≠ "Icy-MetaData: 1" :=
  ne_of_firstChar (firstChar_auth_line s) rfl (by decide)

lemma auth_ne_redirect (s h p : String) :
    "Authorization: Basic " ++ s ≠ "ice-redirect: " ++ h ++ ":" ++ p :=
  ne_of_firstChar (firstChar_auth_line s) (firstChar_redirect_line h p) (by decide)

lemma auth_ne_empty (s : String) : "Authorization: Basic " ++ s ≠ "" :=
  ne_empty_of_firstChar (firstChar_auth_line s)

lemma redirect_mem_request_iff (relay : relay_server) (hostname : String)
    (master_redirect_port : Int) (version : String) (b64 : String → String) :
    ("ice-redirect: " ++ hostname ++ ":" ++ toString master_redirect_port)
        ∈ relay_request_lines relay hostname master_redirect_port version b64
      ↔ relay.username.isSome ∧ relay.password.isSome
          ∧ master_redirect_port ≠ 0 := by
  cases hu : relay.username with
  | none =>
    by_cases hm : relay.mp3metadata = 0 <;>
      simp [relay_request_lines, hu, hm, redirect_ne_get, redirect_ne_ua,
        redirect_ne_icy, redirect_ne_empty]
  | some u =>
    cases hp : relay.password with
    | none =>
      by_cases hm : relay.mp3metadata = 0 <;>
        simp [relay_request_lines, hu, hp, hm, redirect_ne_get, redirect_ne_ua,
          redirect_ne_icy, redirect_ne_empty]
    | some p =>
      by_cases hport : master_redirect_port = 0
      · by_cases hm : relay.mp3metadata = 0 <;>
          simp [relay_request_lines, hu, hp, hm, hport, redirect_ne_get,
            redirect_ne_ua, redirect_ne_icy, redirect_ne_auth, redirect_ne_empty]
      · by_cases hm : relay.mp3metadata = 0 <;>
          simp [relay_request_lines, hu, hp, hm, hport]

lemma icy_mem_request_iff (relay : relay_server) (hostname : String)
    (master_redirect_port : Int) (version : String) (b64 : String → String) :
    "Icy-MetaData: 1"
        ∈ relay_request_lines relay hostname master_redirect_port version b64
      ↔ relay.mp3metadata ≠ 0 := by
  cases hu : relay.username with
  | none =>
    by_cases hm : relay.mp3metadata = 0 <;>
      simp [relay_request_lines, hu, hm, icy_ne_get, icy_ne_ua]
  | some u =>
    cases hp : relay.password with
    | none =>
      by_cases hm : relay.mp3metadata = 0 <;>
        simp [relay_request_lines, hu, hp, hm, icy_ne_get, icy_ne_ua]
    | some p =>
      by_cases hport : master_redirect_port = 0 <;>
        by_cases hm : relay.mp3metadata = 0 <;>
          simp [relay_request_lines, hu, hp, hm, hport, icy_ne_get, icy_ne_ua,
            icy_ne_redirect, icy_ne_auth]

lemma auth_mem_request_iff (relay : relay_server) (hostname : String)
    (master_redirect_port : Int) (version : String) (b64 : String → String) :
    (∃ s, ("Authorization: Basic " ++ s)
        ∈ relay_request_lines relay hostname master_redirect_port version b64)
      ↔ relay.username.isSome ∧ relay.password.isSome := by
  cases hu : relay.username with
  | none =>
    by_cases hm : relay.mp3metadata = 0 <;>
      simp [relay_request_lines, hu, hm, auth_ne_get, auth_ne_ua, auth_ne_icy,
        auth_ne_empty]
  | some u =>
    cases hp : relay.password with
    | none =>
      by_cases hm : relay.mp3metadata = 0 <;>
        simp [relay_request_lines, hu, hp, hm, auth_ne_get, auth_ne_ua,
          auth_ne_icy, auth_ne_empty]
    | some p =>
      by_cases hport : master_redirect_port = 0 <;>
        by_cases hm : relay.mp3metadata = 0 <;>
          (simp [relay_request_lines, hu, hp, hm, hport];
           exact ⟨b64 (u ++ ":" ++ p), by simp⟩)

lemma empty_ne_of_firstChar {s : String} {c : Char}
    (hs : firstChar s = some c) : "" ≠ s := fun he =>
  (ne_empty_of_firstChar hs) he.symm

lemma empty_ne_get (m : String) : "" ≠ "GET " ++ m ++ " HTTP/1.0" :=
  empty_ne_of_firstChar (firstChar_get_line m)

lemma empty_ne_ua (v : String) : "" ≠ "User-Agent: " ++ v :=
  empty_ne_of_firstChar (firstChar_ua_line v)

lemma empty_ne_icy : ("" : String) ≠ "Icy-MetaData: 1" := by decide

lemma empty_ne_redirect (h p : String) :
    "" ≠ "ice-redirect: " ++ h ++ ":" ++ p :=
  empty_ne_of_firstChar (firstChar_redirect_line h p)

lemma empty_ne_auth (s : String) : "" ≠ "Authorization: Basic " ++ s :=
  empty_ne_of_firstChar (firstChar_auth_line s)

lemma request_headers_before_blank (relay : relay_server) (hostname : String)
    (master_redirect_port : Int) (version : String) (b64 : String → String) :
    ∃ hdrs, relay_request_lines relay hostname master_redirect_port version b64
        = hdrs ++ [""] ∧ ∀ h ∈ hdrs, h ≠ "" := by
  unfold relay_request_lines
  cases hu : relay.username with
  | none =>
    refine ⟨["GET " ++ relay.mount ++ " HTTP/1.0", "User-Agent: " ++ version]
      ++ (if relay.mp3metadata ≠ 0 then ["Icy-MetaData: 1"] else []),
      by simp, fun h hh he => ?_⟩
    subst he
    by_cases hm : relay.mp3metadata = 0 <;>
      simp [hm, empty_ne_get, empty_ne_ua, empty_ne_icy] at hh
  | some u =>
    cases hp : relay.password with
    | none =>
      refine ⟨["GET " ++ relay.mount ++ " HTTP/1.0", "User-Agent: " ++ version]
        ++ (if relay.mp3metadata ≠ 0 then ["Icy-MetaData: 1"] else []),
        by simp, fun h hh he => ?_⟩
      subst he
      by_cases hm : relay.mp3metadata = 0 <;>
        simp [hm, empty_ne_get, empty_ne_ua, empty_ne_icy] at hh
    | some p =>
      refine ⟨["GET " ++ relay.mount ++ " HTTP/1.0", "User-Agent: " ++ version]
        ++ (if relay.mp3metadata ≠ 0 then ["Icy-MetaData: 1"] else [])
        ++ (if master_redirect_port ≠ 0 then
              ["ice-redirect: " ++ hostname ++ ":"
                ++ toString master_redirect_port]
            else [])
        ++ ["Authorization: Basic " ++ b64 (u ++ ":" ++ p)],
        by simp, fun h hh he => ?_⟩
      subst he
      by_cases hm : relay.mp3metadata = 0 <;>
        by_cases hport : master_redirect_port = 0 <;>
          simp [hm, hport, empty_ne_get, empty_ne_ua, empty_ne_icy,
            empty_ne_redirect, empty_ne_auth] at hh

/-- A relay with no credentials configured (used for the C4 counterexample). -/
def wr_nocred : relay_server :=
  ⟨"up.example", "/m", "/m", none, none, 8000, 1, 0, 1, none, 0, 0⟩

/-- C4 counterexample: with a nonzero `master_redirect_port` but no HTTP
Basic credentials on the relay, the request contains no `ice-redirect`
header — the header is not independent of the credentials, refuting the
claim as stated. -/
theorem C4_counterexample :
    (8001 : Int) ≠ 0
    ∧ ("ice-redirect: " ++ "relay.example" ++ ":" ++ toString (8001 : Int))
        ∉ relay_request_lines wr_nocred "relay.example" 8001 "Icecast/2.3"
            (fun s => s) := by
  constructor
  · decide
  · decide

/-- C4 (amended): the `ice-redirect: <hostname>:<master_redirect_port>`
header is sent iff the relay has both username and password set *and* the
configuration advertises a nonzero redirect port (the redirect header is
only built inside the credentials branch, slave.c:241-270); the
`Icy-MetaData: 1` header is present iff `mp3metadata` is set; the
`Authorization` header is present iff both credentials are set; and every
header line precedes the terminating blank line. -/
theorem C4_request_headers (relay : relay_server) (hostname : String)
    (master_redirect_port : Int) (version : String) (b64 : String → String) :
    (("ice-redirect: " ++ hostname ++ ":" ++ toString master_redirect_port)
        ∈ relay_request_lines relay hostname master_redirect_port version b64
      ↔ relay.username.isSome ∧ relay.password.isSome
          ∧ master_redirect_port ≠ 0)
    ∧ ("Icy-MetaData: 1"
        ∈ relay_request_lines relay hostname master_redirect_port version b64
      ↔ relay.mp3metadata ≠ 0)
    ∧ ((∃ s, ("Authorization: Basic " ++ s)
        ∈ relay_request_lines relay hostname master_redirect_port version b64)
      ↔ relay.username.isSome ∧ relay.password.isSome)
    ∧ ∃ hdrs, relay_request_lines relay hostname master_redirect_port version b64
        = hdrs ++ [""] ∧ ∀ h ∈ hdrs, h ≠ "" :=
  ⟨redirect_mem_request_iff relay hostname master_redirect_port version b64,
   icy_mem_request_iff relay hostname master_redirect_port version b64,
   auth_mem_request_iff relay hostname master_redirect_port version b64,
   request_headers_before_blank relay hostname master_redirect_port version b64⟩

/-! ### The start / on-demand policy of `check_relay_stream` (C5)

`check_relay_stream` (slave.c:397-440, the `do` block) decides whether to
spawn a relay worker.  The claim concerns a relay that already holds a
reserved source, so the model takes that source record as an argument.
The external environment is the config tree (`config_find_mount` result)
and the global source tree (`source_find_mount`). -/

/-- The fields of `source_t` read or written by `slave.c`. -/
structure source_t where
  on_demand : Int
  on_demand_req : Int
  fallback_mount : Option String
  fallback_override : Int
  running : Int
  listeners : Nat
deriving DecidableEq, Repr

/-- External lookups made by `check_relay_stream`. -/
structure slave_env where
  mountinfo : Option Unit
  source_tree : String → Option source_t

/-- Externally visible effects of one `check_relay_stream` run on a relay
with a reserved source: whether `source_update_settings` was called,
whether `slave_rebuild_mounts` was called, whether a worker thread was
spawned, and the final state of the relay's source. -/
structure check_result where
  updated_settings : Bool
  rebuilt_mounts : Bool
  spawned : Bool
  source : source_t
deriving DecidableEq, Repr

/-- The `do` block of `check_relay_stream` (slave.c:397-440) for a relay
whose source is reserved. -/
def check_relay_stream (relay : relay_server) (source : source_t)
    (env : slave_env) : check_result :=
  if relay.running ≠ 0 then ⟨false, false, false, source⟩
  else if relay.enable = 0 then ⟨false, false, false, source⟩
  else if relay.on_demand ≠ 0 then
    let updated := env.mountinfo.isNone
    let source1 : source_t := { source with on_demand := relay.on_demand }
    let source2 : source_t :=
      match source1.fallback_mount with
      | some fm =>
        if source1.fallback_override ≠ 0 then
          match env.source_tree fm with
          | some fallback =>
            if fallback.running ≠ 0 ∧ fallback.listeners ≠ 0 then
              { source1 with on_demand_req := 1 }
            else source1
          | none => source1
        else source1
      | none => source1
    if source2.on_demand_req = 0 then ⟨updated, true, false, source2⟩
    else ⟨updated, true, true, source2⟩
  else ⟨false, false, true, source⟩

/-- Spec-side predicate: demand exists via fallback override, i.e. the
source names a fallback, has the override flag, and the fallback is
running with at least one listener. -/
def fallback_demand (source : source_t) (env : slave_env) : Bool :=
  match source.fallback_mount with
  | none => false
  | some fm =>
    if source.fallback_override ≠ 0 then
      match env.source_tree fm with
      | none => false
      | some fb => if fb.running ≠ 0 ∧ fb.listeners ≠ 0 then true else false
    else false

def w_src : source_t := ⟨0, 0, none, 0, 0, 0⟩

def w_relay_od : relay_server :=
  ⟨"up.example", "/od", "/od", none, none, 8000, 1, 1, 1, some 3, 0, 0⟩

def w_env_mounted : slave_env := ⟨some (), fun _ => none⟩

/-- C5 counterexample: an enabled, idle, on-demand relay whose localmount
*does* have a mount-specific config entry (`config_find_mount ≠ NULL`)
does not get its per-mount settings refreshed — `source_update_settings`
is called only when `config_find_mount` returns NULL (slave.c:412-413),
refuting the unconditional refresh stated in the claim. -/
theorem C5_counterexample :
    w_relay_od.running = 0 ∧ w_relay_od.enable ≠ 0 ∧ w_relay_od.on_demand ≠ 0
    ∧ (check_relay_stream w_relay_od w_src w_env_mounted).updated_settings
        = false := by
  refine ⟨by decide, by decide, by decide, ?_⟩
  decide

/-- C5 (amended): for an enabled, idle relay with a reserved source and
`on_demand` set, the start check (1) calls `source_update_settings` iff
`config_find_mount` found no mount-specific entry, (2) copies the relay's
`on_demand` into the source, (3) sets `source.on_demand_req` to 1 exactly
when a configured fallback with `fallback_override` is found running with
at least one listener (otherwise `on_demand_req` keeps its prior value),
and (4) spawns a relay worker iff the resulting `on_demand_req` is
nonzero. -/
theorem C5_on_demand_start (relay : relay_server) (source : source_t)
    (env : slave_env) (hrun : relay.running = 0) (hen : relay.enable ≠ 0)
    (hod : relay.on_demand ≠ 0) :
    (check_relay_stream relay source env).updated_settings
        = env.mountinfo.isNone
    ∧ (check_relay_stream relay source env).source.on_demand
        = relay.on_demand
    ∧ (check_relay_stream relay source env).source.on_demand_req
        = (if fallback_demand source env then 1 else source.on_demand_req)
    ∧ ((check_relay_stream relay source env).spawned = true
        ↔ (check_relay_stream relay source env).source.on_demand_req ≠ 0) := by
  unfold check_relay_stream fallback_demand
  rw [if_neg (by simp [hrun]), if_neg hen, if_pos hod]
  cases hfm : source.fallback_mount with
  | none =>
    by_cases hreq : source.on_demand_req = 0 <;> simp [hfm, hreq]
  | some fm =>
    by_cases hov : source.fallback_override ≠ 0
    · cases hfb : env.source_tree fm with
      | none =>
        by_cases hreq : source.on_demand_req = 0 <;>
          simp [hfm, hov, hfb, hreq]
      | some fb =>
        by_cases hlive : fb.running ≠ 0 ∧ fb.listeners ≠ 0
        · simp [hfm, hov, hfb, hlive]
        · by_cases hreq : source.on_demand_req = 0 <;>
            simp [hfm, hov, hfb, hlive, hreq]
    · by_cases hreq : source.on_demand_req = 0 <;> simp [hfm, hov, hreq]

def w_src_fb : source_t := ⟨0, 0, some "/live", 1, 0, 0⟩

def w_env_live : slave_env :=
  ⟨none, fun m => if m = "/live" then some ⟨0, 0, none, 0, 1, 3⟩ else none⟩

theorem C5_on_demand_start_witness :
    (w_relay_od.running = 0 ∧ w_relay_od.enable ≠ 0 ∧ w_relay_od.on_demand ≠ 0)
    ∧ ((check_relay_stream w_relay_od w_src_fb w_env_live).updated_settings
          = w_env_live.mountinfo.isNone
      ∧ (check_relay_stream w_relay_od w_src_fb w_env_live).source.on_demand
          = w_relay_od.on_demand
      ∧ (check_relay_stream w_relay_od w_src_fb w_env_live).source.on_demand_req
          = (if fallback_demand w_src_fb w_env_live then 1
             else w_src_fb.on_demand_req)
      ∧ ((check_relay_stream w_relay_od w_src_fb w_env_live).spawned = true
          ↔ (check_relay_stream w_relay_od w_src_fb w_env_live).source.on_demand_req
              ≠ 0)) :=
  ⟨⟨by decide, by decide, by decide⟩,
   C5_on_demand_start w_relay_od w_src_fb w_env_live
     (by decide) (by decide) (by decide)⟩

/-! ### Master streamlist status handling (C6)

`streamlist_header` (slave.c:601-632) inspects each response header line;
`streamlist_thread` (slave.c:732-746) commits the fetched list against
`global.master_relays` only when `master->ok` was set by a 200 status
line. -/

/-- C `isspace`, as used by `sscanf` and `atoi`. -/
def c_isspace (c : Char) : Bool :=
  c = ' ' || c = '\t' || c = '\n' || c = '\x0b' || c = '\x0c' || c = '\r'

/-- Leading run of decimal digits as a number; `none` when the input does
not start with a digit (a conversion failure for `%d`). -/
def scan_digits (l : List Char) : Option Nat :=
  let ds := l.takeWhile Char.isDigit
  if ds.isEmpty then none
  else some (ds.foldl (fun a c => a * 10 + (c.toNat - 48)) 0)

/-- The `%d` conversion of `sscanf`: skip whitespace, optional sign, then
digits (C int overflow is not modelled; values stay exact). -/
def scan_int (l : List Char) : Option Int :=
  match l.dropWhile c_isspace with
  | '+' :: rest => (scan_digits rest).map Int.ofNat
  | '-' :: rest => (scan_digits rest).map (fun n => -(n : Int))
  | l2 => (scan_digits l2).map Int.ofNat

/-- `sscanf (line, "HTTP%*s %d OK", &respcode)` (slave.c:621): after the
literal `HTTP`, `%*s` skips whitespace and consumes a nonempty
non-whitespace token, then `%d` reads an integer.  Returns the integer if
it was assigned (`sscanf` returned 1), `none` otherwise.  The trailing
literal ` OK` is only matched after `%d` has been assigned, so it cannot
change the return value. -/
def scan_http_status (l : List Char) : Option Int :=
  match l with
  | 'H' :: 'T' :: 'T' :: 'P' :: rest =>
    let afterWs := rest.dropWhile c_isspace
    let token := afterWs.takeWhile (fun c => !c_isspace c)
    if token.isEmpty then none
    else scan_int (afterWs.dropWhile (fun c => !c_isspace c))
  | _ => none

/-- EOL handling of `streamlist_header` (slave.c:607-617): truncate at the
first CR, else at the first LF, else return -1 (modelled as `none`). -/
def truncate_eol (chunk : List Char) : Option (List Char) :=
  if chunk.contains '\r' then some (chunk.takeWhile (fun c => c ≠ '\r'))
  else if chunk.contains '\n' then some (chunk.takeWhile (fun c => c ≠ '\n'))
  else none

/-- `streamlist_header` (slave.c:601-632) on one header chunk: returns the
new `master->ok` flag, or `none` when the callback returns -1 and curl
aborts the transfer. -/
def streamlist_header (chunk : List Char) (ok : Int) : Option Int :=
  match truncate_eol chunk with
  | none => none
  | some line =>
    if line.take 4 = ['H', 'T', 'T', 'P'] then
      match scan_http_status line with
      | some code => if code = 200 then some 1 else none
      | none => none
    else some ok

/-- The commit step of `streamlist_thread` (slave.c:734-746): reconcile
against the master relay list only when `master->ok` is set.  Returns
(new master relay list, cleanup list). -/
def streamlist_commit (ok : Int)
    (master_relays new_relays : List relay_server) :
    List relay_server × List relay_server :=
  if ok ≠ 0 then
    let r := update_relays master_relays new_relays
    (r.1, r.2.2)
  else (master_relays, [])

/-- C6: a status line that does not scan as `HTTP%*s %d OK` with code 200
makes the header callback abort the fetch; with `ok` still 0 the commit
leaves the master relay list untouched and produces no cleanup; and the
`ok` flag can only change to 1, and only when a 200 status line was
seen. -/
theorem C6_status_gate :
    (∀ (chunk : List Char) (ok : Int) (line : List Char),
        truncate_eol chunk = some line →
        line.take 4 = ['H', 'T', 'T', 'P'] →
        scan_http_status line ≠ some 200 →
        streamlist_header chunk ok = none)
    ∧ (∀ master_relays new_relays : List relay_server,
        streamlist_commit 0 master_relays new_relays = (master_relays, []))
    ∧ (∀ (chunk : List Char) (ok ok2 : Int),
        streamlist_header chunk ok = some ok2 → ok2 ≠ ok →
        ok2 = 1 ∧ ∃ line, truncate_eol chunk = some line
          ∧ scan_http_status line = some 200) := by
  refine ⟨?_, ?_, ?_⟩
  · intro chunk ok line h1 h2 h3
    unfold streamlist_header
    rw [h1]
    simp only [if_pos h2]
    cases hs : scan_http_status line with
    | none => rfl
    | some code =>
      show (if code = 200 then (some 1 : Option Int) else none) = none
      rw [if_neg]
      intro hc
      exact h3 (by rw [hs, hc])
  · intro master_relays new_relays
    simp [streamlist_commit]
  · intro chunk ok ok2 h hne
    unfold streamlist_header at h
    split at h
    · cases h
    · rename_i line ht
      split at h
      · rename_i hp
        split at h
        · rename_i code hs
          split at h
          · rename_i hc
            exact ⟨(Option.some.inj h).symm, line, ht, by rw [hs, hc]⟩
          · cases h
        · cases h
      · exact absurd (Option.some.inj h).symm hne

theorem C6_status_gate_witness :
    (truncate_eol ("HTTP/1.0 404 Not Found\r\n".data)
        = some ("HTTP/1.0 404 Not Found".data)
      ∧ ("HTTP/1.0 404 Not Found".data).take 4 = ['H', 'T', 'T', 'P']
      ∧ scan_http_status ("HTTP/1.0 404 Not Found".data) ≠ some 200)
    ∧ streamlist_header ("HTTP/1.0 404 Not Found\r\n".data) 0 = none :=
  ⟨⟨by decide, by decide, by decide⟩,
   C6_status_gate.1 ("HTTP/1.0 404 Not Found\r\n".data) 0
     ("HTTP/1.0 404 Not Found".data) (by decide) (by decide) (by decide)⟩

/-! ### The relay worker's failure path (C7)

`start_relay_stream` (slave.c:216-376) is a `do { ... } while (0)` block
whose `break`s fall through to the failure path (slave.c:351-375).  The
outcome of each external step is abstracted into an environment record;
the model tracks which step breaks out and which resources the worker
still owns at that point. -/

/-- Outcomes of the external calls made by `start_relay_stream`, in
program order: `sock_connect_wto`, `util_read_header`,
`httpp_parse_response`, the parser's error variable, `client_create` and
`connection_complete_source`.  `source_tree` is `source_find_mount` for
the fallback lookup. -/
structure worker_env where
  connect_ok : Bool
  header_read_ok : Bool
  parse_ok : Bool
  parser_error : Bool
  client_create_ok : Bool
  complete_source_ok : Bool
  source_tree : String → Option Nat

/-- Externally visible effects of one `start_relay_stream` run. -/
structure worker_result where
  running_set : Bool
  ran_source_main : Bool
  moved_clients : Bool
  closed_connection : Bool
  parser_destroyed : Bool
  cleared_source : Bool
  cleanup : Int
  rescan : Bool

/-- `start_relay_stream` (slave.c:216-376) for a relay whose source (with
the given `fallback_mount`) is installed.  The `do` block is modelled by
computing where it breaks out together with the connection/parser
ownership at that point: the connection is owned from `connection_create`
(slave.c:239) and the parser from `httpp_create_parser` (slave.c:300)
until both are handed over (or explicitly zeroed) around `client_create`
(slave.c:314-324).  The failure path (slave.c:351-375) moves clients to a
configured and present fallback, closes/destroys what is still owned,
clears the source and requests cleanup and rescan; the success path ends
with `source_main` and also requests cleanup and rescan
(slave.c:335-348). -/
def start_relay_stream (source : source_t) (env : worker_env) :
    worker_result :=
  let state :=
    if !env.connect_ok then some (false, false)
    else if !env.header_read_ok then some (true, false)
    else if !env.parse_ok then some (true, true)
    else if env.parser_error then some (true, true)
    else if !env.client_create_ok then some (false, false)
    else if !env.complete_source_ok then some (false, false)
    else none
  match state with
  | some (con, parser) =>
    let moved :=
      match source.fallback_mount with
      | some fm => (env.source_tree fm).isSome
      | none => false
    { running_set := true
      ran_source_main := false
      moved_clients := moved
      closed_connection := con
      parser_destroyed := parser
      cleared_source := true
      cleanup := 1
      rescan := true }
  | none =>
    { running_set := true
      ran_source_main := true
      moved_clients := false
      closed_connection := false
      parser_destroyed := false
      cleared_source := false
      cleanup := 1
      rescan := true }

/-- The run fails at some step before `source_main`. -/
def worker_fails (env : worker_env) : Prop :=
  ¬ (env.connect_ok = true ∧ env.header_read_ok = true ∧ env.parse_ok = true
     ∧ env.parser_error = false ∧ env.client_create_ok = true
     ∧ env.complete_source_ok = true)

instance (env : worker_env) : Decidable (worker_fails env) := by
  unfold worker_fails; infer_instance

/-- C7: whenever any step before `source_main` fails, the worker does not
reach `source_main`; it moves the attached clients iff a fallback mount is
configured and found in the source tree; it closes the connection iff it
still owns one (connect succeeded and the failure came before
`client_create`) and destroys the parser iff it still owns one (parser
created and the failure came before `client_create`); it always clears the
source, sets the relay's `cleanup` flag to 1 and raises the rescan flag.
In particular, once `client_create` has run, neither the connection nor
the parser is freed by the worker. -/
theorem C7_worker_failure_path (source : source_t) (env : worker_env)
    (hfail : worker_fails env) :
    (start_relay_stream source env).ran_source_main = false
    ∧ ((start_relay_stream source env).moved_clients = true
        ↔ ∃ fm, source.fallback_mount = some fm
            ∧ (env.source_tree fm).isSome)
    ∧ (start_relay_stream source env).closed_connection
        = (env.connect_ok && (!env.header_read_ok || !env.parse_ok
            || env.parser_error))
    ∧ (start_relay_stream source env).parser_destroyed
        = (env.connect_ok && env.header_read_ok && (!env.parse_ok
            || env.parser_error))
    ∧ (start_relay_stream source env).cleared_source = true
    ∧ (start_relay_stream source env).cleanup = 1
    ∧ (start_relay_stream source env).rescan = true := by
  unfold worker_fails at hfail
  unfold start_relay_stream
  cases hc : env.connect_ok <;> cases hh : env.header_read_ok <;>
    cases hp : env.parse_ok <;> cases hpe : env.parser_error <;>
    cases hcc : env.client_create_ok <;> cases hcs : env.complete_source_ok <;>
    simp_all <;>
    (cases hfm : source.fallback_mount with
     | none => simp
     | some fm => simp)

def w_src_bak : source_t := ⟨1, 0, some "/backup", 0, 0, 0⟩

def w_env_fail : worker_env :=
  ⟨true, true, true, true, true, true,
   fun m => if m = "/backup" then some 5 else none⟩

theorem C7_worker_failure_path_witness :
    worker_fails w_env_fail
    ∧ ((start_relay_stream w_src_bak w_env_fail).ran_source_main = false
      ∧ ((start_relay_stream w_src_bak w_env_fail).moved_clients = true
          ↔ ∃ fm, w_src_bak.fallback_mount = some fm
              ∧ (w_env_fail.source_tree fm).isSome)
      ∧ (start_relay_stream w_src_bak w_env_fail).closed_connection
          = (w_env_fail.connect_ok && (!w_env_fail.header_read_ok
              || !w_env_fail.parse_ok || w_env_fail.parser_error))
      ∧ (start_relay_stream w_src_bak w_env_fail).parser_destroyed
          = (w_env_fail.connect_ok && w_env_fail.header_read_ok
              && (!w_env_fail.parse_ok || w_env_fail.parser_error))
      ∧ (start_relay_stream w_src_bak w_env_fail).cleared_source = true
      ∧ (start_relay_stream w_src_bak w_env_fail).cleanup = 1
      ∧ (start_relay_stream w_src_bak w_env_fail).rescan = true) :=
  ⟨by decide, C7_worker_failure_path w_src_bak w_env_fail (by decide)⟩

/-! ### The slave host table (C8-C10)

`slave_host` entries live in the linked list `global.slaves` with the
counter `global.slave_count`; `slave_redirect` (slave.c:171-210) picks an
entry for a 302 redirect, `slave_host_add` (slave.c:930-959) and
`slave_host_remove` (slave.c:884-924) maintain the table. -/

structure slave_host where
  server : String
  port : Int
  count : Int
deriving DecidableEq, Repr

/-- The slave-host part of the global state. -/
structure slaves_state where
  slaves : List slave_host
  slave_count : Int
deriving DecidableEq, Repr

/-- `find_slave_host` (slave.c:961-971). -/
def find_slave_host (slaves : List slave_host) (server : String)
    (port : Int) : Option slave_host :=
  slaves.find? (fun s => s.server == server && s.port == port)

/-- `_add_slave_host` (slave.c:973-986): prepend a fresh entry with
count 1 and bump `slave_count`; a failed `calloc` makes it a no-op. -/
def add_slave_host (st : slaves_state) (server : String) (port : Int)
    (alloc_ok : Bool) : slaves_state :=
  if alloc_ok then
    { slaves := ⟨server, port, 1⟩ :: st.slaves,
      slave_count := st.slave_count + 1 }
  else st

/-- C `atoi`: skip whitespace, optional sign, leading digits; no digits
gives 0 (overflow is not modelled). -/
def atoi (s : String) : Int :=
  match s.data.dropWhile c_isspace with
  | '-' :: rest =>
    -(((rest.takeWhile Char.isDigit).foldl
        (fun a c => a * 10 + (c.toNat - 48)) 0 : Nat) : Int)
  | '+' :: rest =>
    (((rest.takeWhile Char.isDigit).foldl
        (fun a c => a * 10 + (c.toNat - 48)) 0 : Nat) : Int)
  | l =>
    (((l.takeWhile Char.isDigit).foldl
        (fun a c => a * 10 + (c.toNat - 48)) 0 : Nat) : Int)

/-- The header parsing shared by `slave_host_add` (slave.c:939-947) and
`slave_host_remove` (slave.c:891-901): reject when no ':' occurs,
otherwise the server is the part before the first ':' and the port is
`atoi` of the remainder. -/
def parse_host_header (header : String) : Option (String × Int) :=
  if header.data.contains ':' then
    some (String.mk (header.data.takeWhile (fun c => c ≠ ':')),
          atoi (String.mk ((header.data.dropWhile (fun c => c ≠ ':')).tail)))
  else none

/-- `slave->count++` on the entry located by `find_slave_host`
(slave.c:950-953): increment the first matching entry in place. -/
def bump_slave_count : List slave_host → String → Int → List slave_host
  | [], _, _ => []
  | s :: rest, server, port =>
    if s.server == server && s.port == port then
      { s with count := s.count + 1 } :: rest
    else s :: bump_slave_count rest server port

/-- `slave_host_add` (slave.c:930-959). -/
def slave_host_add (st : slaves_state) (client : Option Unit)
    (header : Option String) (alloc_ok : Bool) : slaves_state :=
  match client, header with
  | some _, some h =>
    match parse_host_header h with
    | none => st
    | some (server, port) =>
      match find_slave_host st.slaves server port with
      | some _ => { st with slaves := bump_slave_count st.slaves server port }
      | none => add_slave_host st server port alloc_ok
  | _, _ => st

/-- The list walk of `slave_host_remove` (slave.c:903-921): decrement the
first matching entry and unlink it exactly when its count reaches 0.
Returns the new list and the amount subtracted from `global.slave_count`
(1 when an entry was unlinked, else 0). -/
def remove_slave_entry : List slave_host → String → Int →
    List slave_host × Int
  | [], _, _ => ([], 0)
  | s :: rest, server, port =>
    if s.server == server && s.port == port then
      if s.count - 1 = 0 then (rest, 1)
      else ({ s with count := s.count - 1 } :: rest, 0)
    else
      let r := remove_slave_entry rest server port
      (s :: r.fst, r.snd)

/-- `slave_host_remove` (slave.c:884-924); `ice_redirect` is the client's
`ice-redirect` header variable as returned by `httpp_getvar`. -/
def slave_host_remove (st : slaves_state) (ice_redirect : Option String) :
    slaves_state :=
  match ice_redirect with
  | none => st
  | some v =>
    match parse_host_header v with
    | none => st
    | some (server, port) =>
      let r := remove_slave_entry st.slaves server port
      { slaves := r.fst, slave_count := st.slave_count - r.snd }

/-- The `while (slave && which)` walk of `slave_redirect`
(slave.c:182-186). -/
def walk_slaves : List slave_host → Nat → Option slave_host
  | [], _ => none
  | s :: _, 0 => some s
  | _ :: rest, n + 1 => walk_slaves rest n

/-- `slave_redirect` (slave.c:171-210).  `which` abstracts
`(int)(slave_count * rand() / (RAND_MAX + 1.0))`, a value in
`[0, slave_count)`.  The location is produced by
`snprintf (location, len, "http://%s:%d%s", server, port, mountpoint)`
with `len = strlen(mountpoint) + strlen(server) + 13` (slave.c:193),
so `snprintf` keeps only the first `len - 1` characters.  Returns the
emitted Location string (if a 302 was sent) and the return value. -/
def slave_redirect (st : slaves_state) (mountpoint : String) (which : Nat)
    (alloc_ok : Bool) : Option String × Int :=
  let slave := if st.slave_count ≠ 0 then walk_slaves st.slaves which
               else none
  match slave with
  | some s =>
    if alloc_ok then
      let len := mountpoint.length + s.server.length + 13
      let location := ("http://" ++ s.server ++ ":" ++ toString s.port
        ++ mountpoint).take (len - 1)
      (some location, 1)
    else (none, 0)
  | none => (none, 0)

/-- C8: evaluation of `slave_redirect` at the failing input.  The buffer
length `strlen(mountpoint) + strlen(server) + 13` leaves room for at most
4 port digits, so for the 5-digit port 65535 the emitted `Location` is
truncated (`http://x:65535/` instead of `http://x:65535/m`), while a
4-digit port is formatted in full. -/
theorem C8_truncated_location :
    (slave_redirect ⟨[⟨"x", 65535, 1⟩], 1⟩ "/m" 0 true).fst
        = some "http://x:65535/"
    ∧ (slave_redirect ⟨[⟨"x", 65535, 1⟩], 1⟩ "/m" 0 true).snd = 1
    ∧ some ("http://" ++ "x" ++ ":" ++ toString (65535 : Int) ++ "/m")
        ≠ (slave_redirect ⟨[⟨"x", 65535, 1⟩], 1⟩ "/m" 0 true).fst
    ∧ (slave_redirect ⟨[⟨"x", 8000, 1⟩], 1⟩ "/m" 0 true).fst
        = some ("http://" ++ "x" ++ ":" ++ toString (8000 : Int) ++ "/m")
    ∧ (slave_redirect ⟨[], 0⟩ "/m" 0 true) = (none, 0) := by
  refine ⟨by decide, by decide, by decide, by decide, by decide⟩

/-- C9's invariant: `slave_count` counts the linked entries and every
linked entry has a strictly positive reference count. -/
def slaves_invariant (st : slaves_state) : Prop :=
  st.slave_count = (st.slaves.length : Int)
    ∧ ∀ s ∈ st.slaves, 1 ≤ s.count

lemma bump_slave_count_length (server : String) (port : Int) :
    ∀ l : List slave_host,
      (bump_slave_count l server port).length = l.length := by
  intro l
  induction l with
  | nil => rfl
  | cons s rest ih =>
    unfold bump_slave_count
    by_cases h : s.server == server && s.port == port <;> simp [h, ih]

lemma bump_slave_count_pos (server : String) (port : Int) :
    ∀ l : List slave_host, (∀ x ∈ l, 1 ≤ x.count) →
      ∀ x ∈ bump_slave_count l server port, 1 ≤ x.count := by
  intro l
  induction l with
  | nil => intro _ x hx; cases hx
  | cons s rest ih =>
    intro hall x hx
    unfold bump_slave_count at hx
    by_cases h : s.server == server && s.port == port
    · rw [if_pos h] at hx
      rcases List.mem_cons.mp hx with rfl | hx2
      · have := hall s (List.mem_cons_self s rest)
        simp only
        omega
      · exact hall x (List.mem_cons_of_mem s hx2)
    · rw [if_neg h] at hx
      rcases List.mem_cons.mp hx with rfl | hx2
      · exact hall x (List.mem_cons_self x rest)
      · exact ih (fun y hy => hall y (List.mem_cons_of_mem s hy)) x hx2

lemma remove_slave_entry_spec (server : String) (port : Int) :
    ∀ l : List slave_host, (∀ x ∈ l, 1 ≤ x.count) →
      ((remove_slave_entry l server port).fst.length : Int)
          + (remove_slave_entry l server port).snd = (l.length : Int)
      ∧ ∀ x ∈ (remove_slave_entry l server port).fst, 1 ≤ x.count := by
  intro l
  induction l with
  | nil => intro _; exact ⟨by simp [remove_slave_entry], fun x hx => by cases hx⟩
  | cons s rest ih =>
    intro hall
    have hrest : ∀ x ∈ rest, 1 ≤ x.count :=
      fun y hy => hall y (List.mem_cons_of_mem s hy)
    have hs : 1 ≤ s.count := hall s (List.mem_cons_self s rest)
    unfold remove_slave_entry
    by_cases h : s.server == server && s.port == port
    · rw [if_pos h]
      by_cases hz : s.count - 1 = 0
      · rw [if_pos hz]
        exact ⟨by simp, hrest⟩
      · rw [if_neg hz]
        refine ⟨by simp, fun x hx => ?_⟩
        rcases List.mem_cons.mp hx with rfl | hx2
        · simp only
          omega
        · exact hrest x hx2
    · rw [if_neg h]
      obtain ⟨ih1, ih2⟩ := ih hrest
      refine ⟨?_, fun x hx => ?_⟩
      · simp only [List.length_cons]
        push_cast
        omega
      · rcases List.mem_cons.mp hx with rfl | hx2
        · exact hs
        · exact ih2 x hx2

instance (st : slaves_state) : Decidable (slaves_invariant st) := by
  unfold slaves_invariant
  infer_instance

/-- C9: the slave-host table invariant (`slave_count` equals the number of
linked entries, every linked entry has `count ≥ 1`) holds for the initial
empty table and is preserved by `slave_host_add` (increment an existing
`(server,port)` entry, or prepend a fresh entry with count 1 and bump
`slave_count`) and by `slave_host_remove` (decrement the matched entry
and, exactly when the count reaches 0, unlink it and decrement
`slave_count`). -/
theorem C9_slave_table_invariant :
    slaves_invariant ⟨[], 0⟩
    ∧ (∀ (st : slaves_state) (client : Option Unit) (header : Option String)
        (alloc_ok : Bool), slaves_invariant st →
        slaves_invariant (slave_host_add st client header alloc_ok))
    ∧ (∀ (st : slaves_state) (ice_redirect : Option String),
        slaves_invariant st →
        slaves_invariant (slave_host_remove st ice_redirect)) := by
  refine ⟨⟨rfl, fun s hs => by cases hs⟩, ?_, ?_⟩
  · intro st client header alloc_ok hinv
    obtain ⟨hlen, hpos⟩ := hinv
    unfold slave_host_add
    split
    · split
      · exact ⟨hlen, hpos⟩
      · split
        · refine ⟨?_, ?_⟩
          · simp only [bump_slave_count_length]
            exact hlen
          · exact bump_slave_count_pos _ _ st.slaves hpos
        · unfold add_slave_host
          split
          · refine ⟨?_, fun x hx => ?_⟩
            · simp only [List.length_cons]
              push_cast
              omega
            · rcases List.mem_cons.mp hx with rfl | hx2
              · simp
              · exact hpos x hx2
          · exact ⟨hlen, hpos⟩
    · exact ⟨hlen, hpos⟩
  · intro st ice_redirect hinv
    obtain ⟨hlen, hpos⟩ := hinv
    cases ice_redirect with
    | none => exact ⟨hlen, hpos⟩
    | some v =>
      cases hp : parse_host_header v with
      | none =>
        simp only [slave_host_remove, hp]
        exact ⟨hlen, hpos⟩
      | some sp =>
        obtain ⟨server, port⟩ := sp
        simp only [slave_host_remove, hp]
        obtain ⟨h1, h2⟩ := remove_slave_entry_spec server port st.slaves hpos
        refine ⟨?_, h2⟩
        show st.slave_count - (remove_slave_entry st.slaves server port).2
            = ((remove_slave_entry st.slaves server port).1.length : Int)
        omega

theorem C9_slave_table_invariant_witness :
    slaves_invariant ⟨[⟨"x", 1, 1⟩], 1⟩
    ∧ slaves_invariant
        (slave_host_add ⟨[⟨"x", 1, 1⟩], 1⟩ (some ()) (some "x:1") true)
    ∧ slaves_invariant
        (slave_host_remove ⟨[⟨"x", 1, 1⟩], 1⟩ (some "x:1")) :=
  ⟨by decide,
   C9_slave_table_invariant.2.1 ⟨[⟨"x", 1, 1⟩], 1⟩ (some ()) (some "x:1")
     true (by decide),
   C9_slave_table_invariant.2.2 ⟨[⟨"x", 1, 1⟩], 1⟩ (some "x:1") (by decide)⟩

lemma bump_slave_count_mem (server : String) (port : Int) :
    ∀ l : List slave_host, (find_slave_host l server port).isSome →
      ∃ x ∈ bump_slave_count l server port,
        x.server = server ∧ x.port = port := by
  intro l
  induction l with
  | nil => intro h; simp [find_slave_host] at h
  | cons s rest ih =>
    intro hf
    by_cases hm : (s.server == server && s.port == port) = true
    · have hm2 := hm
      simp only [Bool.and_eq_true, beq_iff_eq] at hm2
      refine ⟨{ s with count := s.count + 1 }, ?_, hm2.1, hm2.2⟩
      unfold bump_slave_count
      rw [if_pos hm]
      exact List.mem_cons_self _ _
    · have hmf : (s.server == server && s.port == port) = false := by
        cases hb : (s.server == server && s.port == port)
        · rfl
        · exact absurd hb hm
      have hf2 : (find_slave_host rest server port).isSome := by
        unfold find_slave_host at hf ⊢
        simp only [List.find?_cons, hmf] at hf
        exact hf
      obtain ⟨x, hx, hxs⟩ := ih hf2
      refine ⟨x, ?_, hxs⟩
      unfold bump_slave_count
      rw [if_neg hm]
      exact List.mem_cons_of_mem s hx

/-- C10: `slave_host_add` is a no-op exactly for a null client, a null
header, or a header with no ':'; a header containing ':' is accepted,
with the server taken from before the first ':' and the port parsed by
`atoi` — so non-numeric or empty port text yields port 0 rather than a
rejection — and the accepted `(server, port)` ends up linked in the
table; `slave_host_remove` applies the same parsing to the client's
`ice-redirect` header. -/
theorem C10_host_header_parsing :
    (∀ (st : slaves_state) (header : Option String) (alloc_ok : Bool),
        slave_host_add st none header alloc_ok = st)
    ∧ (∀ (st : slaves_state) (c : Unit) (alloc_ok : Bool),
        slave_host_add st (some c) none alloc_ok = st)
    ∧ (∀ (st : slaves_state) (c : Unit) (h : String) (alloc_ok : Bool),
        ¬ h.data.contains ':' →
        slave_host_add st (some c) (some h) alloc_ok = st)
    ∧ (∀ (h server : String) (port : Int),
        parse_host_header h = some (server, port) →
        server = String.mk (h.data.takeWhile (fun c => c ≠ ':'))
        ∧ port = atoi (String.mk ((h.data.dropWhile (fun c => c ≠ ':')).tail)))
    ∧ (∀ (st : slaves_state) (c : Unit) (h server : String) (port : Int),
        parse_host_header h = some (server, port) →
        ∃ x ∈ (slave_host_add st (some c) (some h) true).slaves,
          x.server = server ∧ x.port = port)
    ∧ parse_host_header "host:abc" = some ("host", 0)
    ∧ parse_host_header "host:" = some ("host", 0)
    ∧ slave_host_add ⟨[], 0⟩ (some ()) (some "host:abc") true
        = ⟨[⟨"host", 0, 1⟩], 1⟩
    ∧ slave_host_remove ⟨[⟨"host", 0, 1⟩], 1⟩ (some "host:abc")
        = ⟨[], 0⟩ := by
  refine ⟨fun st header alloc_ok => rfl, fun st c alloc_ok => rfl,
    ?_, ?_, ?_, by decide, by decide, by decide, by decide⟩
  · intro st c h alloc_ok hc
    simp only [slave_host_add, parse_host_header, hc, Bool.false_eq_true,
      if_false]
  · intro h server port hp
    unfold parse_host_header at hp
    by_cases hc : h.data.contains ':'
    · rw [if_pos hc] at hp
      have := Option.some.inj hp
      exact ⟨(congrArg Prod.fst this).symm, (congrArg Prod.snd this).symm⟩
    · rw [if_neg hc] at hp
      cases hp
  · intro st c h server port hp
    simp only [slave_host_add, hp]
    cases hf : find_slave_host st.slaves server port with
    | some s =>
      exact bump_slave_count_mem server port st.slaves (by rw [hf]; rfl)
    | none =>
      refine ⟨⟨server, port, 1⟩, ?_, rfl, rfl⟩
      simp [add_slave_host]

theorem C10_host_header_parsing_witness :
    (¬ ("hostport".data.contains ':'))
    ∧ slave_host_add ⟨[], 0⟩ (some ()) (some "hostport") true = ⟨[], 0⟩
    ∧ parse_host_header "h:9" = some ("h", 9)
    ∧ ∃ x ∈ (slave_host_add ⟨[], 0⟩ (some ()) (some "h:9") true).slaves,
        x.server = "h" ∧ x.port = 9 :=
  ⟨by decide,
   C10_host_header_parsing.2.2.1 ⟨[], 0⟩ () "hostport" true (by decide),
   by decide,
   C10_host_header_parsing.2.2.2.2.1 ⟨[], 0⟩ () "h:9" "h" 9 (by decide)⟩
